import Mathlib

/-!
Verification of the bi-chatbot repository's natural-language specification.

The repository is a Hebrew BI chatbot: a FastAPI backend translates a
natural-language question into SQL (NL2SQL pipeline: schema catalog, prompt
builder, SQL generator, guardrail validator, preview-capped executor, answer
synthesizer) and a React frontend renders the answers and charts.

The frontend TypeScript sources are present (client/frontend-react); the
backend Python sources are not included in this copy of the repository — only
their end-to-end flow documentation and project-shape notes are.  Frontend
claims are embedded directly from the TypeScript; backend claims are settled
against definitions modelled from the specification, marked
`Modelled from the spec:` in their doc comments.

Strings are embedded as `List Char` (the `data` field of Lean's `String`),
so every definition is executable and every concrete instance can be checked
by `decide` or `rfl`.
-/

/-! ## Shared character-list utilities -/

/-- Character lists stand in for the strings the program manipulates. -/
abbrev Str := List Char

/-- The single-quote character, written via its code point. -/
def quoteChar : Char := Char.ofNat 39

/-- Uppercasing, used by the case-insensitive SQL keyword checks. -/
def upper (s : Str) : Str := s.map Char.toUpper

/-! ## Frontend API client (src/client/frontend-react)

The API client (`fetchWithTimeout` and friends) appears twice in the sources,
embedded in `components/AnalyticsPanel.tsx` and `components/UserMenu.tsx`;
both copies carry the same header and error logic.  Configuration constants
come from `src/client/frontend-react/src/config.ts`. -/

/-- `DEFAULT_HEADERS` from config.ts: the empty header map. -/
def DEFAULT_HEADERS : List (String × String) := []

/-- `API_TIMEOUT` from config.ts line 63, in milliseconds. -/
def API_TIMEOUT : Nat := 500000

/-- JavaScript's `url.includes(sub)` substring test. -/
def urlIncludes (url sub : String) : Bool := decide (sub.data <:+: url.data)

/-- JavaScript truthiness of the value `getToken()` returns (`string | null`):
`null` and the empty string are falsy. -/
def jsTruthy (token : Option String) : Bool :=
  match token with
  | none => false
  | some t => t ≠ ""

/-- The header list `fetchWithTimeout` hands to `fetch`: `DEFAULT_HEADERS`
merged with the per-request headers, and — `if (token &&
!url.includes('/auth/login'))` — an appended `Authorization: Bearer <token>`
entry.  The guard is JavaScript truthiness of `token`, so an empty stored
token attaches no header. -/
def fetchWithTimeoutHeaders (token : Option String) (url : String)
    (optionHeaders : List (String × String)) : List (String × String) :=
  let headers := DEFAULT_HEADERS ++ optionHeaders
  if jsTruthy token = true ∧ urlIncludes url "/auth/login" = false then
    headers ++ [("Authorization", "Bearer " ++ token.getD "")]
  else headers

/-- A JavaScript error value; `name` is what the catch clause inspects. -/
structure JsError where
  name : String
  message : String
deriving DecidableEq, Repr

/-- The `APIError` thrown when the abort timer fired (`error.name ===
'AbortError'` branch of `fetchWithTimeout`).  The `APIError` constructor sets
`this.name = 'APIError'`. -/
def timeoutAPIError : JsError :=
  { name := "APIError", message := "Request timeout - server took too long to respond" }

/-- The `AbortError` produced by `fetch` when `controller.abort()` fires. -/
def abortJsError : JsError :=
  { name := "AbortError", message := "The operation was aborted" }

/-- Control flow of `fetchWithTimeout`: a timer aborts the request after
`timeout` ms; `delay` is how long the network call would take to settle and
`net` its outcome.  If the timer fires first the fetch rejects with an
`AbortError`; the catch clause turns any `AbortError` into the fixed
`APIError` and re-throws every other failure unchanged. -/
def fetchWithTimeout {α : Type} (timeout delay : Nat) (net : Except JsError α) :
    Except JsError α :=
  let raw := if timeout ≤ delay then Except.error abortJsError else net
  match raw with
  | Except.ok r => Except.ok r
  | Except.error e =>
    if e.name = "AbortError" then Except.error timeoutAPIError else Except.error e

/-! ## Frontend visualization derivation (App.tsx, in src/unnamed/part_000) -/

/-- One entry of the inline-chart `data` array built in `handleSendMessage`:
`{name: label, value: viz.values[i]}`.  `value` is `none` when `viz.values`
is shorter than `viz.labels` (JavaScript `undefined`). -/
structure VizDataPoint (β : Type) where
  name : String
  value : Option β
deriving DecidableEq, Repr

/-- `viz.labels.map((label, i) => ({name: label, value: viz.values[i]}))`. -/
def buildVizData (β : Type) (labels : List String) (values : List β) :
    List (VizDataPoint β) :=
  labels.enum.map (fun p => { name := p.2, value := values[p.1]? })

/-- `viz.chart_type === 'pie' ? 'pie' : viz.chart_type === 'line' ? 'line' :
'bar'` from `handleSendMessage`. -/
def mapChartType (t : String) : String :=
  if t = "pie" then "pie" else if t = "line" then "line" else "bar"

/-! ## Claim theorems: C8, C9, C10 -/

/-- Counterexample to C8 as stated: the source guard is JavaScript
truthiness (`if (token && !url.includes('/auth/login'))`), so a stored
*empty-string* token attaches no `Authorization` header on a non-login URL —
the claim's "every other endpoint receives `Authorization: Bearer <token>`
whenever a token is stored" fails at the stored token `""`. -/
theorem fetchWithTimeout_auth_header_cex :
    fetchWithTimeoutHeaders (some "") "http://localhost:8000/ask" [] =
      fetchWithTimeoutHeaders none "http://localhost:8000/ask" [] ∧
    urlIncludes "http://localhost:8000/ask" "/auth/login" = false ∧
    fetchWithTimeoutHeaders (some "") "http://localhost:8000/ask" [] ≠
      fetchWithTimeoutHeaders none "http://localhost:8000/ask" [] ++
        [("Authorization", "Bearer " ++ "")] := by
  refine ⟨by decide, by decide, by decide⟩

/-- C8 (amended): `fetchWithTimeout` never attaches an `Authorization`
header to a request whose URL contains `/auth/login` — with any stored token
the headers equal the no-token headers — while every other URL receives the
same headers plus `Authorization: Bearer <token>` whenever a *non-empty*
token is stored (the empty string is falsy in JavaScript's
`if (token && ...)` guard). -/
theorem fetchWithTimeout_auth_header :
    (∀ (t : String) (url : String) (opts : List (String × String)),
      urlIncludes url "/auth/login" = true →
      fetchWithTimeoutHeaders (some t) url opts = fetchWithTimeoutHeaders none url opts) ∧
    (∀ (t : String) (url : String) (opts : List (String × String)),
      t ≠ "" →
      urlIncludes url "/auth/login" = false →
      fetchWithTimeoutHeaders (some t) url opts =
        fetchWithTimeoutHeaders none url opts ++ [("Authorization", "Bearer " ++ t)]) := by
  constructor
  · intro t url opts h
    simp [fetchWithTimeoutHeaders, h]
  · intro t url opts ht h
    simp [fetchWithTimeoutHeaders, jsTruthy, ht, h]

/-- Witness for C8 at concrete inputs: the login URL gets token-independent
headers; the ask URL gets the bearer header for a non-empty token. -/
theorem fetchWithTimeout_auth_header_witness :
    fetchWithTimeoutHeaders (some "tok") "http://localhost:8000/auth/login" [] =
      fetchWithTimeoutHeaders none "http://localhost:8000/auth/login" [] ∧
    fetchWithTimeoutHeaders (some "tok") "http://localhost:8000/ask" [("Content-Type", "application/json")] =
      fetchWithTimeoutHeaders none "http://localhost:8000/ask" [("Content-Type", "application/json")] ++
        [("Authorization", "Bearer " ++ "tok")] :=
  ⟨fetchWithTimeout_auth_header.1 "tok" _ [] (by decide),
   fetchWithTimeout_auth_header.2 "tok" _ _ (by decide) (by decide)⟩

/-- C9: when an `AskResponse` contains a visualization, `handleSendMessage`
derives `data[i] = {name: labels[i], value: values[i]}` for every index `i`
of `labels` (so `data` has exactly `labels.length` entries), and maps
`chart_type` `pie` to `pie`, `line` to `line`, and everything else
(including `bar`, `scatter`, `metric`) to `bar`. -/
theorem handleSendMessage_viz_mapping :
    (∀ (β : Type) (labels : List String) (values : List β),
      (buildVizData β labels values).length = labels.length) ∧
    (∀ (β : Type) (labels : List String) (values : List β) (i : Nat),
      i < labels.length →
      ∃ h : i < labels.length,
        (buildVizData β labels values)[i]? =
          some { name := labels[i], value := values[i]? }) ∧
    (mapChartType "pie" = "pie" ∧ mapChartType "line" = "line" ∧
      ∀ t : String, t ≠ "pie" → t ≠ "line" → mapChartType t = "bar") := by
  refine ⟨?_, ?_, by decide, by decide, ?_⟩
  · intro β labels values
    simp [buildVizData, List.enum_length]
  · intro β labels values i h
    refine ⟨h, ?_⟩
    simp [buildVizData, List.getElem?_map, List.getElem?_enum,
      List.getElem?_eq_getElem h]
  · intro t h1 h2
    simp [mapChartType, h1, h2]

/-- Witness for C9 at concrete inputs: two labels against one value, and the
`scatter` chart type. -/
theorem handleSendMessage_viz_mapping_witness :
    (buildVizData Nat ["a", "b"] [7]).length = (["a", "b"] : List String).length ∧
    (buildVizData Nat ["a", "b"] [7])[1]? =
      some { name := "b", value := ([7] : List Nat)[1]? } ∧
    mapChartType "scatter" = "bar" :=
  ⟨handleSendMessage_viz_mapping.1 Nat ["a", "b"] [7],
   by
    obtain ⟨h, e⟩ := handleSendMessage_viz_mapping.2.1 Nat ["a", "b"] [7] 1 (by decide)
    exact e,
   handleSendMessage_viz_mapping.2.2.2.2 "scatter" (by decide) (by decide)⟩

/-- C10: every request through `fetchWithTimeout` is bounded by `API_TIMEOUT`
milliseconds — if the server takes at least that long the fetch is aborted
and the caller receives the fixed `APIError` (`Request timeout - server took
too long to respond`); the underlying `AbortError` never propagates, and
every other fetch failure is re-thrown unchanged. -/
theorem fetchWithTimeout_timeout_bound :
    (∀ (α : Type) (delay : Nat) (net : Except JsError α),
      API_TIMEOUT ≤ delay →
      fetchWithTimeout API_TIMEOUT delay net = Except.error timeoutAPIError) ∧
    (∀ (α : Type) (delay : Nat) (e : JsError),
      delay < API_TIMEOUT → e.name ≠ "AbortError" →
      fetchWithTimeout (α := α) API_TIMEOUT delay (Except.error e) = Except.error e) ∧
    (∀ (α : Type) (timeout delay : Nat) (net : Except JsError α) (e : JsError),
      fetchWithTimeout timeout delay net = Except.error e → e.name ≠ "AbortError") := by
  refine ⟨?_, ?_, ?_⟩
  · intro α delay net h
    simp [fetchWithTimeout, h, abortJsError]
  · intro α delay e hlt hname
    rw [fetchWithTimeout]
    simp [Nat.not_le.mpr hlt, hname]
  · intro α timeout delay net e h
    rw [fetchWithTimeout] at h
    by_cases hc : timeout ≤ delay
    · rw [if_pos hc] at h
      simp only [abortJsError] at h
      norm_num at h
      rw [← h]
      decide
    · rw [if_neg hc] at h
      cases net with
      | ok r => simp at h
      | error e' =>
        by_cases hn : e'.name = "AbortError"
        · simp only [hn, if_pos] at h
          norm_num at h
          rw [← h]
          decide
        · simp only [hn] at h
          norm_num [hn] at h
          rw [← h]
          exact hn

/-- Witness for C10 at concrete inputs: a slow server yields the timeout
`APIError`; a fast `TypeError` failure passes through unchanged; the surfaced
error is never an `AbortError`. -/
theorem fetchWithTimeout_timeout_bound_witness :
    fetchWithTimeout (α := Nat) API_TIMEOUT 600000 (Except.ok 5) =
      Except.error timeoutAPIError ∧
    fetchWithTimeout (α := Nat) API_TIMEOUT 10
        (Except.error { name := "TypeError", message := "failed" }) =
      Except.error { name := "TypeError", message := "failed" } ∧
    timeoutAPIError.name ≠ "AbortError" :=
  ⟨fetchWithTimeout_timeout_bound.1 Nat 600000 (Except.ok 5) (by decide),
   fetchWithTimeout_timeout_bound.2.1 Nat 10 _ (by decide) (by decide),
   fetchWithTimeout_timeout_bound.2.2 Nat API_TIMEOUT 600000 (Except.ok 5)
     timeoutAPIError (fetchWithTimeout_timeout_bound.1 Nat 600000 (Except.ok 5) (by decide))⟩

/-! ## Backend data model (modelled from the spec)

The backend Python sources (FastAPI `server/app`, `AIService`,
`ChatbotService`, guardrails, executor) are not present in this copy of the
repository; only their flow documentation is.  The definitions below are
modelled from the specification (§3, §4, §7) and the repository's flow notes,
and the backend claims are settled against them. -/

/-- A result row as a mapping from column name to rendered value. -/
abbrev Row := List (String × String)

/-- Modelled from the spec: the preview cap on executor result sets
("capped at a configured preview size, default 20"; `fetchmany(20)` in the
missing `services/executor/service.py`). -/
def PREVIEW_ROWS : Nat := 20

/-- Modelled from the spec: `ExecutionResult` (§3). -/
structure ExecutionResult where
  success : Bool
  rows : List Row
  row_count : Nat
  duration_sec : Nat
  error : Option String
deriving Repr

/-- Modelled from the spec: `execute_sql` / §4.6 Query Executor, read path.
The missing executor fetches at most `PREVIEW_ROWS` rows of the statement's
full result set and reports `row_count` as the number fetched.  `db`
abstracts the database: the full result set each statement would produce;
`durationSec` the observed timing. -/
def execute_sql (db : String → List Row) (durationSec : Nat) (sql : String) :
    ExecutionResult :=
  let fetched := (db sql).take PREVIEW_ROWS
  { success := true, rows := fetched, row_count := fetched.length,
    duration_sec := durationSec, error := none }

/-- Modelled from the spec: `SchemaSnapshot` (§3) — ordered mapping of table
name to column names (relationship metadata omitted; no claim consults it). -/
structure SchemaSnapshot where
  tables : List (String × List String)
deriving DecidableEq, Repr

/-- A loaded schema counts only when it is non-empty (§4.1: an "empty/invalid
result" triggers the next source). -/
def SchemaSnapshot.isValid (s : SchemaSnapshot) : Bool := ¬ s.tables.isEmpty

/-- Outcome of one schema-loading step after validity filtering: `none` when
the step raised (missing file, parse error) or yielded an empty snapshot. -/
def checkStep (o : Option SchemaSnapshot) : Option SchemaSnapshot :=
  match o with
  | none => none
  | some s => if s.isValid then some s else none

/-- The fatal startup message when every schema source failed. -/
def schemaFatalMsg : String := "fatal: could not load a schema from any source"

/-- Modelled from the spec: `_analyze_database_schema` / §4.1 Schema Catalog.
Tries the curated meta-schema document, then the shared ontology merged with
the client data-source mapping, then live introspection of the allow-listed
business tables, in that fixed order; each later step runs only if the
previous yielded no valid snapshot, and the result is fatal only when all
three fail.  The three `Option SchemaSnapshot` arguments abstract what each
loader would return. -/
def analyze_database_schema (meta ontology introspection : Option SchemaSnapshot) :
    Except String SchemaSnapshot :=
  match checkStep meta with
  | some s => Except.ok s
  | none =>
    match checkStep ontology with
    | some s => Except.ok s
    | none =>
      match checkStep introspection with
      | some s => Except.ok s
      | none => Except.error schemaFatalMsg

/-- Modelled from the spec: `ErrorKind` (§7). -/
inductive ErrorKind where
  | SchemaUnavailable
  | GenerationUnavailable
  | GenerationRejected
  | ExecutionFailed
  | SynthesisDegenerate
deriving DecidableEq, Repr

/-- Modelled from the spec: `QueryResponse` (§3), the externally visible unit
returned to the caller. -/
structure QueryResponse where
  answer : String
  sql : Option String
  data : List Row
  error : Option ErrorKind
deriving Repr

/-- Modelled from the spec: `ChatbotService._error_response` — converts a
captured `ErrorKind` into a `QueryResponse` carrying a short Hebrew
user-facing message, with no SQL and no data. -/
def error_response (e : ErrorKind) : QueryResponse :=
  { answer :=
      match e with
      | ErrorKind.SchemaUnavailable => "שגיאה: סכמת הנתונים אינה זמינה"
      | ErrorKind.GenerationUnavailable => "שירות יצירת השאילתות אינו זמין כרגע, נסו שוב מאוחר יותר"
      | ErrorKind.GenerationRejected => "לא ניתן היה להפיק שאילתה בטוחה עבור שאלה זו"
      | ErrorKind.ExecutionFailed => "אירעה שגיאה בהרצת השאילתה מול מסד הנתונים"
      | ErrorKind.SynthesisDegenerate => "לא הצלחנו לנסח תשובה לשאלה זו",
    sql := none, data := [], error := some e }

/-- Modelled from the spec: the Orchestrator's legacy per-request sequence
(`ChatbotService.process_question`, §4.8) with its stage outcomes
abstracted: `gen` is the SQL-generation outcome, `exec` the execution
outcome per statement, `synth` the answer synthesis.  Every stage failure is
converted at this boundary into an error `QueryResponse`; no exception
escapes. -/
def process_question (gen : Except ErrorKind String)
    (exec : String → Except ErrorKind (List Row))
    (synth : List Row → String) : QueryResponse :=
  match gen with
  | Except.error e => error_response e
  | Except.ok sql =>
    match exec sql with
    | Except.error e => error_response e
    | Except.ok rows =>
      { answer := synth rows, sql := some sql, data := rows, error := none }

/-! ## Prompt builder (modelled from the spec, §4.3) -/

/-- Ambient process state (clock, randomness) that an impure prompt builder
could read; the spec demands the prompt not depend on it. -/
structure AmbientEnv where
  timeNow : Nat
  randSeed : Nat

/-- Relevance filter over the schema: keep tables whose name occurs in the
question, falling back to the whole schema when none matches. -/
def selectRelevantTables (question : String) (schema : SchemaSnapshot) :
    List (String × List String) :=
  let rel := schema.tables.filter (fun t => decide (t.1.data <:+: question.data))
  if rel.isEmpty then schema.tables else rel

/-- Serialize a table list into prompt text. -/
def serializeTables (ts : List (String × List String)) : String :=
  ts.foldl (fun acc t => acc ++ t.1 ++ ": " ++ String.intercalate ", " t.2 ++ "\n") ""

/-- The hard-coded join rule embedded verbatim (project notes:
`W_Orders.saleID` joins `W_sales.id`). -/
def hardJoinRules : String := "JOIN RULE: W_Orders.saleID = W_sales.id\n"

/-- The fixed formatting instruction demanding a single statement. -/
def formattingInstruction : String := "Return exactly one SELECT or WITH statement.\n"

/-- Modelled from the spec: `_build_sql_prompt` / §4.3 Prompt Builder — a
pure render of schema snapshot, join rules, instructions, conversation
context and question.  It takes the ambient environment as an argument and
uses none of it. -/
def build_sql_prompt (question : String) (schema : SchemaSnapshot)
    (contextText : String) (_env : AmbientEnv) : String :=
  formattingInstruction ++
  serializeTables (selectRelevantTables question schema) ++
  hardJoinRules ++
  contextText ++ "\n" ++ question

/-! ## Claim theorems: C3, C4, C5, C7 -/

/-- C3: for every read-query result set with more than `PREVIEW_ROWS` rows
(default 20), `execute_sql` returns an `ExecutionResult` whose `rows` has
length exactly `PREVIEW_ROWS` and whose `row_count` equals `PREVIEW_ROWS` —
the capped preview, never the true total. -/
theorem execute_sql_preview_cap :
    ∀ (db : String → List Row) (d : Nat) (sql : String),
      PREVIEW_ROWS < (db sql).length →
      (execute_sql db d sql).rows.length = PREVIEW_ROWS ∧
      (execute_sql db d sql).row_count = PREVIEW_ROWS := by
  intro db d sql h
  have hlen : ((db sql).take PREVIEW_ROWS).length = PREVIEW_ROWS := by
    rw [List.length_take]
    exact Nat.min_eq_left (Nat.le_of_lt h)
  exact ⟨hlen, hlen⟩

/-- Witness for C3: a 21-row result set is previewed to exactly 20 rows. -/
theorem execute_sql_preview_cap_witness :
    PREVIEW_ROWS < ((fun _ : String => List.replicate 21 ([] : Row)) "SELECT 1").length ∧
    (execute_sql (fun _ => List.replicate 21 ([] : Row)) 0 "SELECT 1").rows.length = PREVIEW_ROWS ∧
    (execute_sql (fun _ => List.replicate 21 ([] : Row)) 0 "SELECT 1").row_count = PREVIEW_ROWS :=
  ⟨by decide,
   execute_sql_preview_cap (fun _ => List.replicate 21 ([] : Row)) 0 "SELECT 1" (by decide)⟩

/-- C4: schema resolution attempts its three sources in fixed order — meta
schema, shared ontology merged with the client mapping, live introspection —
each later step only when the previous yielded no valid snapshot; a single
step's failure is non-fatal, and the pipeline fails fatally iff all three
steps fail. -/
theorem analyze_database_schema_fallback_order :
    (∀ (m o i : Option SchemaSnapshot) (s : SchemaSnapshot),
      checkStep m = some s → analyze_database_schema m o i = Except.ok s) ∧
    (∀ (m o i : Option SchemaSnapshot) (s : SchemaSnapshot),
      checkStep m = none → checkStep o = some s →
      analyze_database_schema m o i = Except.ok s) ∧
    (∀ (m o i : Option SchemaSnapshot) (s : SchemaSnapshot),
      checkStep m = none → checkStep o = none → checkStep i = some s →
      analyze_database_schema m o i = Except.ok s) ∧
    (∀ (m o i : Option SchemaSnapshot),
      analyze_database_schema m o i = Except.error schemaFatalMsg ↔
      (checkStep m = none ∧ checkStep o = none ∧ checkStep i = none)) := by
  refine ⟨?_, ?_, ?_, ?_⟩
  · intro m o i s hm
    simp [analyze_database_schema, hm]
  · intro m o i s hm ho
    simp [analyze_database_schema, hm, ho]
  · intro m o i s hm ho hi
    simp [analyze_database_schema, hm, ho, hi]
  · intro m o i
    constructor
    · intro h
      cases hm : checkStep m with
      | some s => simp [analyze_database_schema, hm] at h
      | none =>
        cases ho : checkStep o with
        | some s => simp [analyze_database_schema, hm, ho] at h
        | none =>
          cases hi : checkStep i with
          | some s => simp [analyze_database_schema, hm, ho, hi] at h
          | none => exact ⟨rfl, rfl, rfl⟩
    · intro ⟨hm, ho, hi⟩
      simp [analyze_database_schema, hm, ho, hi]

/-- Witness for C4 at concrete inputs: an empty meta schema and a raising
ontology loader fall through to a valid introspection result; when all three
fail the result is the fatal error. -/
theorem analyze_database_schema_fallback_order_witness :
    analyze_database_schema (some ⟨[]⟩) none (some ⟨[("W_sales", ["id"])]⟩) =
      Except.ok ⟨[("W_sales", ["id"])]⟩ ∧
    analyze_database_schema (some ⟨[]⟩) none none = Except.error schemaFatalMsg ∧
    analyze_database_schema (some ⟨[("W_sales", ["id"])]⟩) none none =
      Except.ok ⟨[("W_sales", ["id"])]⟩ :=
  ⟨analyze_database_schema_fallback_order.2.2.1 _ _ _ _ (by decide) (by decide) (by decide),
   (analyze_database_schema_fallback_order.2.2.2 (some ⟨[]⟩) none none).mpr
     ⟨by decide, by decide, by decide⟩,
   analyze_database_schema_fallback_order.1 _ _ _ _ (by decide)⟩

/-- C5: when SQL generation fails with `GenerationUnavailable` (LLM timeout
or unreachable service), `process_question` still returns a `QueryResponse`
whose `error` is `GenerationUnavailable`, whose message is non-empty and
whose `sql` is absent; and every SQL-generation *or execution* failure is
converted at the Orchestrator boundary into such a response — for every
`ErrorKind` the produced response carries the kind, a non-empty user-facing
message, and no SQL, and `process_question` is a total function (no
exception escapes). -/
theorem process_question_error_boundary :
    (∀ (exec : String → Except ErrorKind (List Row)) (synth : List Row → String),
      process_question (Except.error ErrorKind.GenerationUnavailable) exec synth =
        error_response ErrorKind.GenerationUnavailable) ∧
    (∀ e : ErrorKind,
      (error_response e).error = some e ∧
      (error_response e).answer ≠ "" ∧
      (error_response e).sql = none) ∧
    (∀ (gen : Except ErrorKind String) (exec : String → Except ErrorKind (List Row))
        (synth : List Row → String) (e : ErrorKind),
      gen = Except.error e →
      (process_question gen exec synth).error = some e ∧
      (process_question gen exec synth).answer ≠ "" ∧
      (process_question gen exec synth).sql = none) ∧
    (∀ (sqlText : String) (exec : String → Except ErrorKind (List Row))
        (synth : List Row → String) (e : ErrorKind),
      exec sqlText = Except.error e →
      process_question (Except.ok sqlText) exec synth = error_response e ∧
      (process_question (Except.ok sqlText) exec synth).error = some e ∧
      (process_question (Except.ok sqlText) exec synth).answer ≠ "" ∧
      (process_question (Except.ok sqlText) exec synth).sql = none) := by
  have herr : ∀ e : ErrorKind,
      (error_response e).error = some e ∧
      (error_response e).answer ≠ "" ∧
      (error_response e).sql = none := by
    intro e
    cases e <;> exact ⟨rfl, by decide, rfl⟩
  refine ⟨?_, herr, ?_, ?_⟩
  · intro exec synth
    rfl
  · intro gen exec synth e hgen
    subst hgen
    exact herr e
  · intro sqlText exec synth e hexec
    have hconv : process_question (Except.ok sqlText) exec synth = error_response e := by
      show (match exec sqlText with
        | Except.error err => error_response err
        | Except.ok rows =>
          { answer := synth rows, sql := some sqlText, data := rows,
            error := none : QueryResponse }) = error_response e
      rw [hexec]
    refine ⟨hconv, ?_, ?_, ?_⟩ <;> rw [hconv]
    · exact (herr e).1
    · exact (herr e).2.1
    · exact (herr e).2.2

/-- Witness for C5: the generation-timeout failure and a database failure at
concrete stage outcomes each yield the matching error response with a
non-empty message and no SQL. -/
theorem process_question_error_boundary_witness :
    process_question (Except.error ErrorKind.GenerationUnavailable)
        (fun _ => Except.ok []) (fun _ => "") =
      error_response ErrorKind.GenerationUnavailable ∧
    (process_question (Except.error ErrorKind.GenerationUnavailable)
        (fun _ => Except.ok []) (fun _ => "")).error =
      some ErrorKind.GenerationUnavailable ∧
    (process_question (Except.error ErrorKind.GenerationUnavailable)
        (fun _ => Except.ok []) (fun _ => "")).answer ≠ "" ∧
    (process_question (Except.error ErrorKind.GenerationUnavailable)
        (fun _ => Except.ok []) (fun _ => "")).sql = none ∧
    process_question (Except.ok "SELECT 1")
        (fun _ => Except.error ErrorKind.ExecutionFailed) (fun _ => "") =
      error_response ErrorKind.ExecutionFailed :=
  by
  have h234 := process_question_error_boundary.2.2.1
    (Except.error ErrorKind.GenerationUnavailable) (fun _ => Except.ok [])
    (fun _ => "") ErrorKind.GenerationUnavailable rfl
  have h5 := process_question_error_boundary.2.2.2 "SELECT 1"
    (fun _ => Except.error ErrorKind.ExecutionFailed) (fun _ => "")
    ErrorKind.ExecutionFailed rfl
  exact ⟨process_question_error_boundary.1 (fun _ => Except.ok []) (fun _ => ""),
    h234.1, h234.2.1, h234.2.2, h5.1⟩

/-- C7: `build_sql_prompt` is deterministic — for identical question, schema
and context it produces byte-identical prompts regardless of the ambient
environment (clock, randomness); the prompt contains no time-based or random
content. -/
theorem build_sql_prompt_deterministic :
    ∀ (question : String) (schema : SchemaSnapshot) (contextText : String)
      (env1 env2 : AmbientEnv),
      build_sql_prompt question schema contextText env1 =
      build_sql_prompt question schema contextText env2 :=
  fun _ _ _ _ _ => rfl

/-! ## Substring helper lemmas -/

/-- A prefix of a character list is also a substring of it. -/
theorem pref_sub {p s : Str} (h : p <+: s) : p <:+: s :=
  Exists.elim h (fun t ht => ⟨[], t, by simpa using ht⟩)

/-- Substring containment is preserved by extending the list on the left. -/
theorem sub_cons {p s : Str} {c : Char} (h : p <:+: s) : p <:+: c :: s :=
  Exists.elim h fun a hh =>
    Exists.elim hh fun b hab =>
      ⟨c :: a, b, by rw [List.cons_append, List.cons_append, hab]⟩

/-! ## Guardrail validator (modelled from the spec, §4.5)

`guardrails.validate_sql_against_semantic_rules` is referenced by the
project notes but its module is not in this copy of the repository. -/

/-- Result of guardrail validation. -/
inductive ValidationResult where
  | ok
  | rejected (reason : String)
deriving DecidableEq, Repr

/-- Whether a validation outcome is a rejection. -/
def ValidationResult.isRejected : ValidationResult → Bool
  | ValidationResult.ok => false
  | ValidationResult.rejected _ => true

/-- The DDL keywords of the configured forbidden patterns. -/
def ddlKeywords : List Str :=
  ["DROP", "ALTER", "CREATE", "TRUNCATE"].map String.data

/-- The DML and procedural keywords of the configured forbidden patterns. -/
def dmlKeywords : List Str :=
  ["INSERT", "UPDATE", "DELETE", "MERGE", "EXEC", "GRANT", "REVOKE"].map String.data

/-- The known injection markers of the configured forbidden patterns. -/
def injectionMarkers : List Str :=
  ["--", "/*", "XP_"].map String.data

/-- Modelled from the spec: the configured set of forbidden patterns
(DDL/DML keywords, known injection markers), matched case-insensitively as
substrings of the candidate. -/
def forbiddenPatterns : List Str := ddlKeywords ++ dmlKeywords ++ injectionMarkers

/-- Whether the (already uppercased) candidate starts with `SELECT` or
`WITH` after leading spaces. -/
def startsSelectOrWith (u : Str) : Bool :=
  let t := u.dropWhile (fun c => c = ' ')
  decide ("SELECT".data <+: t) || decide ("WITH".data <+: t)

/-- The non-blank statements of a candidate, split at the `;` separator. -/
def statementParts (u : Str) : List Str :=
  (u.splitOn ';').filter (fun t => ¬ (t.dropWhile (fun c => c = ' ')).isEmpty)

/-- Whether the candidate consists of at most one statement. -/
def singleStatement (u : Str) : Bool := (statementParts u).length ≤ 1

/-- Modelled from the spec: `guardrails.validate_sql_against_semantic_rules`
(§4.5 Guardrail Validator) — a static allow-SELECT-only firewall: rejects
anything that is not exactly one SELECT or WITH statement, and rejects
candidates matching any configured forbidden pattern. -/
def validate_sql_against_semantic_rules (sql : String) : ValidationResult :=
  if startsSelectOrWith (upper sql.data) = false then
    ValidationResult.rejected "only SELECT or WITH statements are allowed"
  else if singleStatement (upper sql.data) = false then
    ValidationResult.rejected "multiple statements are not allowed"
  else if forbiddenPatterns.any (fun p => decide (p <:+: upper sql.data)) = true then
    ValidationResult.rejected "forbidden pattern in statement"
  else ValidationResult.ok

/-! ## SQL response parsing (modelled from the spec, §4.4) -/

/-- Escape a literal for inclusion in a SQL string: double every quote. -/
def escapeQuotes : Str → Str
  | [] => []
  | c :: cs =>
    if c = quoteChar then c :: c :: escapeQuotes cs else c :: escapeQuotes cs

/-- The fallback wrapping of free text: `SELECT '<escaped text>'`. -/
def wrapLiteral (s : Str) : Str :=
  "SELECT ".data ++ [quoteChar] ++ escapeQuotes s ++ [quoteChar]

/-- Whether the raw model output contains a JSON `"sql"` field marker. -/
def hasJsonSqlField (s : Str) : Bool := decide ("\"sql\"".data <:+: s)

/-- Split a list at the leftmost occurrence of `pat`, returning the part
before and the part after it. -/
def splitFirstOccur (pat : Str) : Str → Option (Str × Str)
  | [] => if pat = [] then some ([], []) else none
  | c :: cs =>
    if pat <+: (c :: cs) then some ([], (c :: cs).drop pat.length)
    else
      match splitFirstOccur pat cs with
      | some (a, b) => some (c :: a, b)
      | none => none

/-- Modelled from the spec: acceptance of "a JSON envelope with an explicit
`sql` field" — after the `"sql"` marker, skip spaces and the colon and read
the quoted value. -/
def extract_json_sql (s : Str) : Option Str :=
  match splitFirstOccur ("\"sql\"".data) s with
  | none => none
  | some (_, rest) =>
    match rest.dropWhile (fun c => c = ' ') with
    | ':' :: r2 =>
      match r2.dropWhile (fun c => c = ' ') with
      | '"' :: r4 => some (r4.takeWhile (fun c => c ≠ '"'))
      | _ => none
    | _ => none

/-- Modelled from the spec: extraction of the first `SELECT…`/`WITH…`
statement from free text by scanning for the leading keyword,
case-insensitively. -/
def extractSelectStatement : Str → Option Str
  | [] => none
  | c :: cs =>
    if ("SELECT".data <+: upper (c :: cs)) ∨ ("WITH".data <+: upper (c :: cs)) then
      some (c :: cs)
    else extractSelectStatement cs

/-- Modelled from the spec: `_parse_sql_response` (§4.4) — accept a JSON
envelope with an explicit `sql` field or free text; from free text extract
the first SELECT/WITH statement; otherwise wrap the literal text as
`SELECT '<escaped text>'` so the pipeline always has some executable
statement. -/
def _parse_sql_response (raw : String) : String :=
  match extract_json_sql raw.data with
  | some sql => String.mk sql
  | none =>
    match extractSelectStatement raw.data with
    | some stmt => String.mk stmt
    | none => String.mk (wrapLiteral raw.data)

/-- No occurrence of `pat` means `splitFirstOccur` finds nothing. -/
theorem splitFirstOccur_eq_none {pat s : Str} (h : ¬ (pat <:+: s)) :
    splitFirstOccur pat s = none := by
  induction s with
  | nil =>
    have hne : pat ≠ [] := by
      intro he
      exact h (by simp [he])
    simp [splitFirstOccur, hne]
  | cons c cs ih =>
    have h1 : ¬ (pat <+: c :: cs) := fun hp => h (pref_sub hp)
    have h2 : ¬ (pat <:+: cs) := fun hi => h (sub_cons hi)
    simp only [splitFirstOccur, if_neg h1, ih h2]

/-- No SELECT or WITH keyword anywhere means the statement scan fails. -/
theorem extractSelectStatement_eq_none {s : Str}
    (hsel : ¬ ("SELECT".data <:+: upper s))
    (hwith : ¬ ("WITH".data <:+: upper s)) :
    extractSelectStatement s = none := by
  induction s with
  | nil => rfl
  | cons c cs ih =>
    have hs1 : ¬ ("SELECT".data <+: upper (c :: cs)) := fun hp => hsel (pref_sub hp)
    have hw1 : ¬ ("WITH".data <+: upper (c :: cs)) := fun hp => hwith (pref_sub hp)
    have hs2 : ¬ ("SELECT".data <:+: upper cs) := fun hi => hsel (sub_cons hi)
    have hw2 : ¬ ("WITH".data <:+: upper cs) := fun hi => hwith (sub_cons hi)
    simp only [extractSelectStatement, if_neg (not_or.mpr ⟨hs1, hw1⟩)]
    exact ih hs2 hw2

/-! ## Claim theorems: C1, C2 -/

/-- C1: every SQL candidate containing a statement separator followed
(anywhere later) by a DDL keyword is rejected by the Guardrail Validator;
and `validate_sql_against_semantic_rules` returns `ok` exactly when the
candidate is a single SELECT/WITH statement matching none of the configured
forbidden patterns. -/
theorem validate_sql_guardrail :
    (∀ (sql : String) (pre mid post kw : Str),
      kw ∈ ddlKeywords →
      upper sql.data = pre ++ [';'] ++ mid ++ kw ++ post →
      (validate_sql_against_semantic_rules sql).isRejected = true) ∧
    (∀ sql : String,
      validate_sql_against_semantic_rules sql = ValidationResult.ok ↔
        (startsSelectOrWith (upper sql.data) = true ∧
         singleStatement (upper sql.data) = true ∧
         forbiddenPatterns.any (fun p => decide (p <:+: upper sql.data)) = false)) := by
  constructor
  · intro sql pre mid post kw hkw hu
    have hinf : kw <:+: upper sql.data :=
      ⟨pre ++ [';'] ++ mid, post, by rw [hu]⟩
    have hany : forbiddenPatterns.any (fun p => decide (p <:+: upper sql.data)) = true :=
      List.any_eq_true.mpr ⟨kw, List.mem_append_left _ (List.mem_append_left _ hkw),
        decide_eq_true hinf⟩
    unfold validate_sql_against_semantic_rules
    split_ifs with h1 h2
    · rfl
    · rfl
    · rfl
  · intro sql
    unfold validate_sql_against_semantic_rules
    split_ifs with h1 h2 h3
    · simp [h1]
    · simp [h2]
    · simp [h3]
    · simp only [Bool.not_eq_false] at h1 h2
      simp only [Bool.not_eq_true] at h3
      simp [h1, h2, h3]

/-- Witness for C1: `SELECT 1; DROP TABLE x` is rejected, and a plain
single-statement SELECT with no forbidden pattern is accepted. -/
theorem validate_sql_guardrail_witness :
    (validate_sql_against_semantic_rules "SELECT 1; DROP TABLE x").isRejected = true ∧
    validate_sql_against_semantic_rules "SELECT name FROM users" = ValidationResult.ok :=
  ⟨validate_sql_guardrail.1 "SELECT 1; DROP TABLE x"
      ("SELECT 1".data) (" ".data) (" TABLE X".data) ("DROP".data)
      (by decide) (by decide),
   (validate_sql_guardrail.2 "SELECT name FROM users").mpr
      ⟨by decide, by decide, by decide⟩⟩

/-- C2: for every free-text model response containing no SELECT/WITH keyword
and no JSON `sql` field, `_parse_sql_response` never raises (it is a total
function) and always returns the wrapped literal `SELECT '<escaped text>'`,
so the generator always yields some executable SELECT statement. -/
theorem parse_sql_response_wraps_free_text :
    ∀ raw : String,
      ¬ ("SELECT".data <:+: upper raw.data) →
      ¬ ("WITH".data <:+: upper raw.data) →
      ¬ ("\"sql\"".data <:+: raw.data) →
      _parse_sql_response raw = String.mk (wrapLiteral raw.data) := by
  intro raw hsel hwith hjson
  unfold _parse_sql_response
  rw [extract_json_sql, splitFirstOccur_eq_none hjson,
    extractSelectStatement_eq_none hsel hwith]

/-- Witness for C2: a Hebrew free-text apology is wrapped into a SELECT
literal. -/
theorem parse_sql_response_wraps_free_text_witness :
    _parse_sql_response "אין לי שאילתה" = String.mk (wrapLiteral ("אין לי שאילתה".data)) :=
  parse_sql_response_wraps_free_text "אין לי שאילתה" (by decide) (by decide) (by decide)

/-! ## SQL normalization (modelled from the spec, §4.4 `normalize`)

`generate_sql`'s normalization pass (`_convert_limit_to_top`,
`_apply_sql_fixes`, `_ensure_select_statement`) is described by the flow
documentation but its module is not in this copy of the repository.  The
model below works on whitespace-separated tokens: a SQL candidate is split
into words, the three deterministic rewrites run on the token list, and the
result is rendered back with single spaces.  The wrapped literal's quotes
are rendered as separate tokens. -/

/-- The words of a candidate: split on spaces, dropping empty fragments. -/
def wordsOf (s : Str) : List Str :=
  (s.splitOn ' ').filter (fun t => !t.isEmpty)

/-- Render a token list back to text with single spaces. -/
def unwords (ts : List Str) : Str := [' '].intercalate ts

/-- A purely numeric token, as in `LIMIT 20`. -/
def isNumericTok (t : Str) : Bool := !t.isEmpty && t.all Char.isDigit

/-- The numeric argument of the first `LIMIT n` clause, if any. -/
def findLimit : List Str → Option Str
  | [] => none
  | [_] => none
  | t :: u :: rest =>
    if t = "LIMIT".data ∧ isNumericTok u = true then some u
    else findLimit (u :: rest)

/-- Remove every `LIMIT n` token pair. -/
def stripLimit : List Str → List Str
  | [] => []
  | t :: rest =>
    match stripLimit rest with
    | [] => [t]
    | u :: r2 =>
      if t = "LIMIT".data ∧ isNumericTok u = true then r2
      else t :: u :: r2

/-- Insert `TOP n` after the first `SELECT` token. -/
def insertTopAfterSelect (n : Str) : List Str → List Str
  | [] => []
  | t :: rest =>
    if t = "SELECT".data then t :: "TOP".data :: n :: rest
    else t :: insertTopAfterSelect n rest

/-- Modelled from the spec: `_convert_limit_to_top` — convert a MySQL-style
`LIMIT n` clause into the SQL Server `TOP n` form (the target engine lacks
`LIMIT`). -/
def convert_limit_to_top (ts : List Str) : List Str :=
  match findLimit ts with
  | none => ts
  | some n => insertTopAfterSelect n (stripLimit ts)

/-- Modelled from the spec: one entry of the fixed bad-pattern → fix
substitution table (`_apply_sql_fixes`, "e.g. a specific mis-qualified
column `parents.week`"). -/
def fixToken (t : Str) : Str :=
  if t = "parents.week".data then "weeks.week".data else t

/-- Modelled from the spec: `_apply_sql_fixes` — apply the fixed
substitution table across the candidate. -/
def apply_sql_fixes (ts : List Str) : List Str := ts.map fixToken

/-- Whether the candidate's first token is `SELECT` or `WITH`,
case-insensitively. -/
def isSelectStart : List Str → Bool
  | [] => false
  | t :: _ => upper t = "SELECT".data || upper t = "WITH".data

/-- The quote rendered as its own token in the wrapped literal. -/
def quoteTok : Str := [quoteChar]

/-- Modelled from the spec: `_ensure_select_statement` — wrap a candidate
that is not a SELECT/WITH statement as the literal `SELECT '<escaped
text>'` (same policy as the parser's fallback). -/
def wrapTokens (ts : List Str) : List Str :=
  "SELECT".data :: quoteTok :: (ts.map escapeQuotes ++ [quoteTok])

/-- Modelled from the spec: the `normalize` pass of `generate_sql` (§4.4) —
LIMIT-to-TOP conversion, then the fixed substitution table, then the
SELECT/WITH wrapping, on the token list. -/
def normalizeTokens (ts : List Str) : List Str :=
  if isSelectStart (apply_sql_fixes (convert_limit_to_top ts)) then
    apply_sql_fixes (convert_limit_to_top ts)
  else wrapTokens (apply_sql_fixes (convert_limit_to_top ts))

/-- Modelled from the spec: `normalize(sql)` on candidate text. -/
def normalize_sql (s : String) : String :=
  String.mk (unwords (normalizeTokens (wordsOf s.data)))

/-! ## Normalization lemmas -/

/-- A numeric token is never the `LIMIT` keyword. -/
theorem numeric_ne_limit {t : Str} (h : isNumericTok t = true) : t ≠ "LIMIT".data := by
  intro he
  rw [he] at h
  exact absurd h (by decide)

/-- `findLimit` of a tail, from `findLimit` of the whole list. -/
theorem findLimit_tail {u : Str} {r : List Str} (h : findLimit (u :: r) = none) :
    findLimit r = none := by
  cases r with
  | nil => rfl
  | cons v rr =>
    simp only [findLimit] at h
    by_cases hc : u = "LIMIT".data ∧ isNumericTok v = true
    · rw [if_pos hc] at h
      exact absurd h (by simp)
    · rw [if_neg hc] at h
      exact h

/-- Extending a `LIMIT`-free list with a non-`LIMIT` head keeps it
`LIMIT`-free. -/
theorem findLimit_cons_of {t : Str} {r : List Str} (ht : t ≠ "LIMIT".data)
    (h : findLimit r = none) : findLimit (t :: r) = none := by
  cases r with
  | nil => rfl
  | cons v rr =>
    simp only [findLimit]
    rw [if_neg (fun hc => ht hc.1)]
    exact h

/-- Appending a non-numeric token keeps a list `LIMIT`-free. -/
theorem findLimit_append_single {z : Str} (hz : isNumericTok z = false) :
    ∀ {ts : List Str}, findLimit ts = none → findLimit (ts ++ [z]) = none
  | [], _ => by
    simp only [List.nil_append]
    rfl
  | [t], _ => by
    simp only [List.cons_append, List.nil_append, findLimit]
    rw [if_neg (fun hc => by rw [hc.2] at hz; exact absurd hz (by simp))]
  | t :: u :: rest, h => by
    simp only [findLimit] at h
    by_cases hc : t = "LIMIT".data ∧ isNumericTok u = true
    · rw [if_pos hc] at h
      exact absurd h (by simp)
    · rw [if_neg hc] at h
      simp only [List.cons_append, findLimit]
      rw [if_neg hc]
      exact findLimit_append_single hz h

/-- A token-wise map that cannot introduce the `LIMIT` keyword or new
numeric tokens preserves `LIMIT`-freedom. -/
theorem findLimit_map {g : Str → Str}
    (hL : ∀ t, g t = "LIMIT".data → t = "LIMIT".data)
    (hN : ∀ t, isNumericTok (g t) = true → isNumericTok t = true) :
    ∀ {ts : List Str}, findLimit ts = none → findLimit (ts.map g) = none
  | [], _ => rfl
  | [_], _ => rfl
  | t :: u :: rest, h => by
    simp only [findLimit] at h
    by_cases hc : t = "LIMIT".data ∧ isNumericTok u = true
    · rw [if_pos hc] at h
      exact absurd h (by simp)
    · rw [if_neg hc] at h
      simp only [List.map_cons, findLimit]
      rw [if_neg (fun hg => hc ⟨hL t hg.1, hN u hg.2⟩)]
      exact findLimit_map hL hN h

/-- `stripLimit` leaves no `LIMIT n` pair behind. -/
theorem findLimit_strip : ∀ ts : List Str, findLimit (stripLimit ts) = none
  | [] => rfl
  | t :: rest => by
    have ih := findLimit_strip rest
    simp only [stripLimit]
    cases hsr : stripLimit rest with
    | nil => rfl
    | cons u r2 =>
      rw [hsr] at ih
      show findLimit (if t = "LIMIT".data ∧ isNumericTok u = true then r2
        else t :: u :: r2) = none
      by_cases hc : t = "LIMIT".data ∧ isNumericTok u = true
      · rw [if_pos hc]
        exact findLimit_tail ih
      · rw [if_neg hc]
        simp only [findLimit]
        rw [if_neg hc]
        exact ih

/-- Inserting `TOP n` (with numeric `n`) after `SELECT` preserves
`LIMIT`-freedom. -/
theorem findLimit_insert {n : Str} (hn : isNumericTok n = true) :
    ∀ {ts : List Str}, findLimit ts = none →
      findLimit (insertTopAfterSelect n ts) = none
  | [], _ => rfl
  | t :: rest, h => by
    simp only [insertTopAfterSelect]
    by_cases hsel : t = "SELECT".data
    · rw [if_pos hsel]
      have h1 : findLimit rest = none := findLimit_tail h
      have h2 : findLimit (n :: rest) = none :=
        findLimit_cons_of (numeric_ne_limit hn) h1
      have h3 : findLimit ("TOP".data :: n :: rest) = none :=
        findLimit_cons_of (by decide) h2
      exact findLimit_cons_of (by rw [hsel]; decide) h3
    · rw [if_neg hsel]
      cases rest with
      | nil => rfl
      | cons u rr =>
        simp only [findLimit] at h
        by_cases hc : t = "LIMIT".data ∧ isNumericTok u = true
        · rw [if_pos hc] at h
          exact absurd h (by simp)
        · rw [if_neg hc] at h
          have ih := findLimit_insert hn h
          obtain ⟨X, hX⟩ : ∃ X, insertTopAfterSelect n (u :: rr) = u :: X := by
            simp only [insertTopAfterSelect]
            by_cases hu : u = "SELECT".data
            · rw [if_pos hu]
              exact ⟨_, rfl⟩
            · rw [if_neg hu]
              exact ⟨_, rfl⟩
          rw [hX]
          rw [hX] at ih
          simp only [findLimit]
          rw [if_neg hc]
          exact ih

/-- The numeric argument returned by `findLimit` is numeric. -/
theorem findLimit_numeric :
    ∀ {ts : List Str} {n : Str}, findLimit ts = some n → isNumericTok n = true
  | [_], _, h => by simp [findLimit] at h
  | t :: u :: rest, n, h => by
    simp only [findLimit] at h
    by_cases hc : t = "LIMIT".data ∧ isNumericTok u = true
    · rw [if_pos hc] at h
      cases h
      exact hc.2
    · rw [if_neg hc] at h
      exact findLimit_numeric h

/-- After `convert_limit_to_top` no `LIMIT n` pair remains. -/
theorem findLimit_convert (ts : List Str) :
    findLimit (convert_limit_to_top ts) = none := by
  unfold convert_limit_to_top
  cases hf : findLimit ts with
  | none => exact hf
  | some n =>
    exact findLimit_insert (findLimit_numeric hf) (findLimit_strip ts)

/-! ## Substitution-table and escaping lemmas -/

/-- `fixToken` cannot produce the `LIMIT` keyword from another token. -/
theorem fixToken_eq_limit {t : Str} (h : fixToken t = "LIMIT".data) :
    t = "LIMIT".data := by
  unfold fixToken at h
  by_cases hp : t = "parents.week".data
  · rw [if_pos hp] at h
    exact absurd h (by decide)
  · rw [if_neg hp] at h
    exact h

/-- `fixToken` cannot produce a numeric token from a non-numeric one. -/
theorem fixToken_numeric {t : Str} (h : isNumericTok (fixToken t) = true) :
    isNumericTok t = true := by
  unfold fixToken at h
  by_cases hp : t = "parents.week".data
  · rw [if_pos hp] at h
    exact absurd h (by decide)
  · rw [if_neg hp] at h
    exact h

/-- `fixToken` is idempotent. -/
theorem fixToken_idem (t : Str) : fixToken (fixToken t) = fixToken t := by
  unfold fixToken
  by_cases hp : t = "parents.week".data
  · rw [if_pos hp, if_neg (by decide)]
  · rw [if_neg hp, if_neg hp]

/-- A token-wise map by `fixToken` over fixpoints is the identity. -/
theorem map_fix_stable : ∀ {ts : List Str}, (∀ t ∈ ts, fixToken t = t) →
    ts.map fixToken = ts := by
  intro ts h
  induction ts with
  | nil => rfl
  | cons t rest ih =>
    simp only [List.map_cons, h t (List.mem_cons_self t rest),
      ih (fun x hx => h x (List.mem_cons_of_mem _ hx))]

/-- Every token of `apply_sql_fixes` output is a `fixToken` fixpoint. -/
theorem fix_mem_stable {ts : List Str} : ∀ t ∈ apply_sql_fixes ts, fixToken t = t := by
  intro t ht
  rcases List.mem_map.mp ht with ⟨s, _, rfl⟩
  exact fixToken_idem s

/-- Characters of an escaped token are characters of the token. -/
theorem mem_escape {c : Char} : ∀ {t : Str}, c ∈ escapeQuotes t → c ∈ t
  | [], h => absurd h (List.not_mem_nil c)
  | d :: cs, h => by
    simp only [escapeQuotes] at h
    by_cases hq : d = quoteChar
    · rw [if_pos hq] at h
      rcases List.mem_cons.mp h with h1 | h2
      · exact h1 ▸ List.mem_cons_self d cs
      · rcases List.mem_cons.mp h2 with h3 | h4
        · exact h3 ▸ List.mem_cons_self d cs
        · exact List.mem_cons_of_mem _ (mem_escape h4)
    · rw [if_neg hq] at h
      rcases List.mem_cons.mp h with h1 | h2
      · exact h1 ▸ List.mem_cons_self d cs
      · exact List.mem_cons_of_mem _ (mem_escape h2)

/-- Characters of a token survive escaping. -/
theorem escape_mem {c : Char} : ∀ {t : Str}, c ∈ t → c ∈ escapeQuotes t
  | [], h => absurd h (List.not_mem_nil c)
  | d :: cs, h => by
    simp only [escapeQuotes]
    rcases List.mem_cons.mp h with h1 | h2
    · by_cases hq : d = quoteChar
      · rw [if_pos hq]
        exact h1 ▸ List.mem_cons_self d _
      · rw [if_neg hq]
        exact h1 ▸ List.mem_cons_self d _
    · by_cases hq : d = quoteChar
      · rw [if_pos hq]
        exact List.mem_cons_of_mem _ (List.mem_cons_of_mem _ (escape_mem h2))
      · rw [if_neg hq]
        exact List.mem_cons_of_mem _ (escape_mem h2)

/-- Escaping a quote-free token is the identity. -/
theorem escape_id : ∀ {t : Str}, quoteChar ∉ t → escapeQuotes t = t
  | [], _ => rfl
  | d :: cs, h => by
    have hd : d ≠ quoteChar := fun hq => h (List.mem_cons.mpr (Or.inl hq.symm))
    have ht : quoteChar ∉ cs := fun hm => h (List.mem_cons_of_mem _ hm)
    simp only [escapeQuotes, if_neg hd, escape_id ht]

/-- Escaping preserves non-emptiness. -/
theorem escape_ne_nil {t : Str} (h : t ≠ []) : escapeQuotes t ≠ [] := by
  cases t with
  | nil => exact absurd rfl h
  | cons d cs =>
    simp only [escapeQuotes]
    by_cases hq : d = quoteChar
    · rw [if_pos hq]
      exact List.cons_ne_nil _ _
    · rw [if_neg hq]
      exact List.cons_ne_nil _ _

/-- The numeric-token test, as a proposition. -/
theorem isNumericTok_iff {t : Str} :
    isNumericTok t = true ↔ (t ≠ [] ∧ ∀ c ∈ t, c.isDigit = true) := by
  simp [isNumericTok, List.all_eq_true, List.isEmpty_iff]

/-- Escaping cannot produce the `LIMIT` keyword from another token. -/
theorem escape_eq_limit {t : Str} (h : escapeQuotes t = "LIMIT".data) :
    t = "LIMIT".data := by
  by_cases hq : quoteChar ∈ t
  · have hmem : quoteChar ∈ escapeQuotes t := escape_mem hq
    rw [h] at hmem
    exact absurd hmem (by decide)
  · rw [escape_id hq] at h
    exact h

/-- Escaping cannot produce a numeric token from a non-numeric one. -/
theorem escape_numeric {t : Str} (h : isNumericTok (escapeQuotes t) = true) :
    isNumericTok t = true := by
  rcases isNumericTok_iff.mp h with ⟨hne, hall⟩
  refine isNumericTok_iff.mpr ⟨?_, ?_⟩
  · intro ht
    rw [ht] at hne
    exact hne rfl
  · intro c hc
    exact hall c (escape_mem hc)

/-- Escaping preserves `fixToken` fixpoints. -/
theorem fixToken_escape_stable {t : Str} (h : fixToken t = t) :
    fixToken (escapeQuotes t) = escapeQuotes t := by
  by_cases hq : quoteChar ∈ t
  · have hmem : quoteChar ∈ escapeQuotes t := escape_mem hq
    unfold fixToken
    rw [if_neg (fun he => by rw [he] at hmem; exact absurd hmem (by decide))]
  · rw [escape_id hq]
    exact h

/-! ## Stability of normalized token lists -/

/-- `convert_limit_to_top` does nothing on a `LIMIT`-free list. -/
theorem convert_of_none {ts : List Str} (h : findLimit ts = none) :
    convert_limit_to_top ts = ts := by
  unfold convert_limit_to_top
  rw [h]

/-- The output of the fix stage is `LIMIT`-free. -/
theorem findLimit_fixes (ts : List Str) :
    findLimit (apply_sql_fixes (convert_limit_to_top ts)) = none :=
  findLimit_map (fun _ h => fixToken_eq_limit h) (fun _ h => fixToken_numeric h)
    (findLimit_convert ts)

/-- The wrapped literal is `LIMIT`-free when its body was. -/
theorem findLimit_wrap {ts : List Str} (h : findLimit ts = none) :
    findLimit (wrapTokens ts) = none := by
  have h1 : findLimit (ts.map escapeQuotes) = none :=
    findLimit_map (fun _ hh => escape_eq_limit hh) (fun _ hh => escape_numeric hh) h
  have h2 : findLimit (ts.map escapeQuotes ++ [quoteTok]) = none :=
    findLimit_append_single (by decide) h1
  have h3 : findLimit (quoteTok :: (ts.map escapeQuotes ++ [quoteTok])) = none :=
    findLimit_cons_of (by decide) h2
  exact findLimit_cons_of (by decide) h3

/-- The fix stage does nothing on the wrapped literal. -/
theorem fixes_wrap_stable {ts : List Str} (h : ∀ t ∈ ts, fixToken t = t) :
    apply_sql_fixes (wrapTokens ts) = wrapTokens ts := by
  unfold apply_sql_fixes wrapTokens
  simp only [List.map_cons, List.map_append]
  rw [show fixToken ("SELECT".data) = "SELECT".data from by decide,
    show fixToken quoteTok = quoteTok from by decide]
  rw [map_fix_stable (fun t ht => by
    rcases List.mem_map.mp ht with ⟨s, hs, rfl⟩
    exact fixToken_escape_stable (h s hs))]
  rfl

/-- The wrapped literal starts with `SELECT`. -/
theorem isSelectStart_wrap (ts : List Str) : isSelectStart (wrapTokens ts) = true := by
  show (decide (upper ("SELECT".data) = "SELECT".data) ||
    decide (upper ("SELECT".data) = "WITH".data)) = true
  decide

/-- `normalizeTokens` is the identity on a `LIMIT`-free, fix-stable list
that starts with SELECT/WITH. -/
theorem normalizeTokens_of_stable {ts : List Str} (h1 : findLimit ts = none)
    (h2 : apply_sql_fixes ts = ts) (h3 : isSelectStart ts = true) :
    normalizeTokens ts = ts := by
  unfold normalizeTokens
  rw [convert_of_none h1, h2, if_pos h3]

/-- Token-level idempotence of the normalization pass. -/
theorem normalizeTokens_idem (ts : List Str) :
    normalizeTokens (normalizeTokens ts) = normalizeTokens ts := by
  have FB : findLimit (apply_sql_fixes (convert_limit_to_top ts)) = none :=
    findLimit_fixes ts
  by_cases hsel : isSelectStart (apply_sql_fixes (convert_limit_to_top ts)) = true
  · have hrw : normalizeTokens ts = apply_sql_fixes (convert_limit_to_top ts) := by
      unfold normalizeTokens
      rw [if_pos hsel]
    rw [hrw]
    exact normalizeTokens_of_stable FB (map_fix_stable fix_mem_stable) hsel
  · have hrw : normalizeTokens ts =
        wrapTokens (apply_sql_fixes (convert_limit_to_top ts)) := by
      unfold normalizeTokens
      rw [if_neg hsel]
    rw [hrw]
    exact normalizeTokens_of_stable (findLimit_wrap FB)
      (fixes_wrap_stable fix_mem_stable) (isSelectStart_wrap _)

/-! ## Word/token well-formedness and the render/split round trip -/

/-- A well-formed token: non-empty and containing no space. -/
def wfTok (t : Str) : Prop := t ≠ [] ∧ ' ' ∉ t

/-- No fragment produced by `splitOnP` contains a separator character. -/
theorem splitOnP_members {p : Char → Bool} :
    ∀ (l : Str), ∀ t ∈ l.splitOnP p, ∀ c ∈ t, p c = false := by
  intro l
  induction l with
  | nil =>
    intro t ht c hc
    rw [List.splitOnP_nil] at ht
    rcases List.mem_cons.mp ht with h1 | h2
    · subst h1
      exact absurd hc (List.not_mem_nil c)
    · exact absurd h2 (List.not_mem_nil t)
  | cons x xs ih =>
    intro t ht c hc
    rw [List.splitOnP_cons] at ht
    by_cases hx : p x = true
    · rw [if_pos hx] at ht
      rcases List.mem_cons.mp ht with h1 | h2
      · subst h1
        exact absurd hc (List.not_mem_nil c)
      · exact ih t h2 c hc
    · rw [if_neg hx] at ht
      obtain ⟨hd, tl, hsplit⟩ : ∃ hd tl, xs.splitOnP p = hd :: tl := by
        cases hsp : xs.splitOnP p with
        | nil => exact absurd hsp (List.splitOnP_ne_nil p xs)
        | cons a b => exact ⟨a, b, rfl⟩
      rw [hsplit] at ht
      simp only [List.modifyHead] at ht
      rcases List.mem_cons.mp ht with h1 | h2
      · subst h1
        rcases List.mem_cons.mp hc with hcx | hctl
        · rw [hcx]
          by_cases hpx : p x = true
          · exact absurd hpx hx
          · simpa using hpx
        · exact ih hd (by rw [hsplit]; exact List.mem_cons_self hd tl) c hctl
      · exact ih t (by rw [hsplit]; exact List.mem_cons_of_mem hd h2) c hc

/-- The words of any text are well-formed tokens. -/
theorem wordsOf_wf (s : Str) : ∀ t ∈ wordsOf s, wfTok t := by
  intro t ht
  unfold wordsOf at ht
  rcases List.mem_filter.mp ht with ⟨hmem, hne⟩
  refine ⟨by simpa [List.isEmpty_iff] using hne, ?_⟩
  intro hc
  have hmem2 : t ∈ s.splitOnP (fun c => c == ' ') := hmem
  have hfalse := splitOnP_members s t hmem2 ' ' hc
  simp at hfalse

/-- `stripLimit` only removes tokens. -/
theorem stripLimit_subset : ∀ (ts : List Str), ∀ t ∈ stripLimit ts, t ∈ ts
  | [] => by
    intro t ht
    exact absurd ht (List.not_mem_nil t)
  | x :: rest => by
    intro t ht
    cases hsr : stripLimit rest with
    | nil =>
      have hx : stripLimit (x :: rest) = [x] := by
        simp only [stripLimit, hsr]
      rw [hx] at ht
      rcases List.mem_cons.mp ht with h1 | h2
      · exact h1 ▸ List.mem_cons_self x rest
      · exact absurd h2 (List.not_mem_nil t)
    | cons u r2 =>
      by_cases hc : x = "LIMIT".data ∧ isNumericTok u = true
      · have hx : stripLimit (x :: rest) = r2 := by
          simp only [stripLimit, hsr, if_pos hc]
        rw [hx] at ht
        have hmem : t ∈ stripLimit rest := by
          rw [hsr]
          exact List.mem_cons_of_mem u ht
        exact List.mem_cons_of_mem x (stripLimit_subset rest t hmem)
      · have hx : stripLimit (x :: rest) = x :: u :: r2 := by
          simp only [stripLimit, hsr, if_neg hc]
        rw [hx] at ht
        rcases List.mem_cons.mp ht with h1 | h2
        · exact h1 ▸ List.mem_cons_self x rest
        · have hmem : t ∈ stripLimit rest := by
            rw [hsr]
            exact h2
          exact List.mem_cons_of_mem x (stripLimit_subset rest t hmem)

/-- The numeric token `findLimit` returns occurs in the candidate. -/
theorem findLimit_mem : ∀ {ts : List Str} {n : Str}, findLimit ts = some n → n ∈ ts
  | [], _, h => by simp [findLimit] at h
  | [_], _, h => by simp [findLimit] at h
  | t :: u :: rest, n, h => by
    simp only [findLimit] at h
    by_cases hc : t = "LIMIT".data ∧ isNumericTok u = true
    · rw [if_pos hc] at h
      cases h
      exact List.mem_cons_of_mem t (List.mem_cons_self u rest)
    · rw [if_neg hc] at h
      exact List.mem_cons_of_mem t (findLimit_mem h)

/-- Tokens after `TOP` insertion come from the input, or are `TOP` / `n`. -/
theorem insertTop_mem {n : Str} :
    ∀ {ts : List Str}, ∀ t ∈ insertTopAfterSelect n ts,
      t ∈ ts ∨ t = "TOP".data ∨ t = n
  | [], t, ht => absurd ht (List.not_mem_nil t)
  | x :: rest, t, ht => by
    simp only [insertTopAfterSelect] at ht
    by_cases hx : x = "SELECT".data
    · rw [if_pos hx] at ht
      rcases List.mem_cons.mp ht with h1 | h2
      · exact Or.inl (h1 ▸ List.mem_cons_self x rest)
      rcases List.mem_cons.mp h2 with h3 | h4
      · exact Or.inr (Or.inl h3)
      rcases List.mem_cons.mp h4 with h5 | h6
      · exact Or.inr (Or.inr h5)
      · exact Or.inl (List.mem_cons_of_mem x h6)
    · rw [if_neg hx] at ht
      rcases List.mem_cons.mp ht with h1 | h2
      · exact Or.inl (h1 ▸ List.mem_cons_self x rest)
      · rcases insertTop_mem t h2 with ha | hb
        · exact Or.inl (List.mem_cons_of_mem x ha)
        · exact Or.inr hb

/-- `convert_limit_to_top` preserves token well-formedness. -/
theorem wf_convert {ts : List Str} (h : ∀ t ∈ ts, wfTok t) :
    ∀ t ∈ convert_limit_to_top ts, wfTok t := by
  intro t ht
  unfold convert_limit_to_top at ht
  cases hf : findLimit ts with
  | none =>
    rw [hf] at ht
    exact h t ht
  | some n =>
    rw [hf] at ht
    rcases insertTop_mem t ht with ha | hb | hc
    · exact h t (stripLimit_subset ts t ha)
    · rw [hb]
      exact ⟨by decide, by decide⟩
    · rw [hc]
      exact h n (findLimit_mem hf)

/-- `apply_sql_fixes` preserves token well-formedness. -/
theorem wf_fixes {ts : List Str} (h : ∀ t ∈ ts, wfTok t) :
    ∀ t ∈ apply_sql_fixes ts, wfTok t := by
  intro t ht
  rcases List.mem_map.mp ht with ⟨s, hs, rfl⟩
  unfold fixToken
  by_cases hp : s = "parents.week".data
  · rw [if_pos hp]
    exact ⟨by decide, by decide⟩
  · rw [if_neg hp]
    exact h s hs

/-- Escaping preserves token well-formedness. -/
theorem wf_escape {t : Str} (h : wfTok t) : wfTok (escapeQuotes t) :=
  ⟨escape_ne_nil h.1, fun hm => h.2 (mem_escape hm)⟩

/-- Wrapping preserves token well-formedness. -/
theorem wf_wrap {ts : List Str} (h : ∀ t ∈ ts, wfTok t) :
    ∀ t ∈ wrapTokens ts, wfTok t := by
  intro t ht
  unfold wrapTokens at ht
  rcases List.mem_cons.mp ht with h1 | h2
  · rw [h1]
    exact ⟨by decide, by decide⟩
  rcases List.mem_cons.mp h2 with h3 | h4
  · rw [h3]
    exact ⟨by decide, by decide⟩
  rcases List.mem_append.mp h4 with h5 | h6
  · rcases List.mem_map.mp h5 with ⟨s, hs, rfl⟩
    exact wf_escape (h s hs)
  · rcases List.mem_cons.mp h6 with h7 | h8
    · rw [h7]
      exact ⟨by decide, by decide⟩
    · exact absurd h8 (List.not_mem_nil t)

/-- The normalization pass preserves token well-formedness. -/
theorem wf_normalize {ts : List Str} (h : ∀ t ∈ ts, wfTok t) :
    ∀ t ∈ normalizeTokens ts, wfTok t := by
  intro t ht
  unfold normalizeTokens at ht
  by_cases hsel : isSelectStart (apply_sql_fixes (convert_limit_to_top ts)) = true
  · rw [if_pos hsel] at ht
    exact wf_fixes (wf_convert h) t ht
  · rw [if_neg hsel] at ht
    exact wf_wrap (wf_fixes (wf_convert h)) t ht

/-- The normalization pass never yields an empty token list. -/
theorem normalizeTokens_ne_nil (ts : List Str) : normalizeTokens ts ≠ [] := by
  unfold normalizeTokens
  by_cases hsel : isSelectStart (apply_sql_fixes (convert_limit_to_top ts)) = true
  · rw [if_pos hsel]
    intro he
    rw [he] at hsel
    exact absurd hsel (by decide)
  · rw [if_neg hsel]
    unfold wrapTokens
    exact List.cons_ne_nil _ _

/-- Splitting the rendered text recovers the tokens. -/
theorem wordsOf_unwords {ts : List Str} (hwf : ∀ t ∈ ts, wfTok t) (hne : ts ≠ []) :
    wordsOf (unwords ts) = ts := by
  unfold wordsOf unwords
  rw [List.splitOn_intercalate ts ' ' (fun l hl => (hwf l hl).2) hne]
  exact List.filter_eq_self.mpr (fun t ht => by
    simp [List.isEmpty_iff, (hwf t ht).1])

/-! ## Claim theorem: C6 -/

/-- C6: SQL normalization is idempotent — for every candidate `s`,
`normalize_sql (normalize_sql s) = normalize_sql s`, where `normalize_sql`
performs the deterministic LIMIT-to-top-N rewrite, the fixed bad-pattern
substitutions, and the SELECT/WITH wrapping. -/
theorem normalize_sql_idempotent :
    ∀ s : String, normalize_sql (normalize_sql s) = normalize_sql s := by
  intro s
  unfold normalize_sql
  have hwords : wordsOf (String.mk (unwords (normalizeTokens (wordsOf s.data)))).data
      = normalizeTokens (wordsOf s.data) := by
    show wordsOf (unwords (normalizeTokens (wordsOf s.data))) = _
    exact wordsOf_unwords (wf_normalize (wordsOf_wf s.data)) (normalizeTokens_ne_nil _)
  rw [hwords, normalizeTokens_idem]
